import Mathlib

/-!
Verification development for the privacy-book-platform-node purchase core.

The definitions below are a shallow embedding of the server-side purchase
logic: the semi-honest oblivious-transfer sender (`SemiHonestOtSender` in
`src/routes/purchase.ts`), the WebSocket message handlers of
`handlePurchaseConnection`, the Stripe webhook's status update
(`src/routes/webhook.ts`), and the AEAD wire format of
`src/ot_crypto.ts` (`aesGcmEncrypt`).

Bytes are modelled as natural numbers and buffers as lists of naturals.
Randomness (seed draws, nonces, ephemeral EC keypairs) is passed in
explicitly as tapes or as abstract encryption functions, since the claims
under scrutiny are about control flow, state transitions and byte layout,
not about the distribution of the random values.
-/

namespace PBP

/-- A byte buffer, as in Node's `Buffer`: a list of byte values. -/
abbrev Bytes := List Nat

/-- One round's seed pair, as pushed by the `SemiHonestOtSender` constructor:
`{ seed0: randomBytes(32), seed1: randomBytes(32) }`. -/
structure SeedPair where
  seed0 : Bytes
  seed1 : Bytes
deriving Repr, DecidableEq

/-- The mutable fields of `SemiHonestOtSender` (purchase.ts lines 164-178):
the ordered book secrets, the selection-bit count, the expected round, and
the per-round seed pairs. -/
structure OtSender where
  bookSecrets : List Bytes
  choiceBitCount : Nat
  currentRound : Nat
  roundSeeds : List SeedPair
deriving Repr, DecidableEq

/-- `books.length > 1 ? Math.ceil(Math.log2(books.length)) : 0`
(purchase.ts line 174).  `Math.ceil (Math.log2 n)` on a natural count of
books is the ceiling base-2 logarithm, `Nat.clog 2 n`. -/
def choiceBitCount (n : Nat) : Nat :=
  if 1 < n then Nat.clog 2 n else 0

/-- The `SemiHonestOtSender` constructor (purchase.ts lines 171-178).
`draw` is the randomness tape for the per-round `randomBytes(32)` pairs:
the constructor loop pushes one pair per round `j < choiceBitCount`. -/
def mkOtSender (books : List Bytes) (draw : Nat → SeedPair) : OtSender :=
  { bookSecrets := books
    choiceBitCount := choiceBitCount books.length
    currentRound := 0
    roundSeeds := (List.range (choiceBitCount books.length)).map draw }

/-- The inner byte loop of `sendFinalSecrets` (purchase.ts lines 241-247):
`masterKey[k] = masterKey[k] ^ seed[k]` for each `k`, skipping positions
where the seed has no byte (the `undefined` guard).  Recursing on the
master key mirrors iterating `k` over its 32 positions. -/
def xorInto : Bytes → Bytes → Bytes
  | [], _ => []
  | b :: mk, [] => b :: mk
  | b :: mk, s :: seed => Nat.xor b s :: xorInto mk seed

/-- `choiceBit === 0 ? seeds.seed0 : seeds.seed1` (purchase.ts line 240). -/
def selectSeed (sp : SeedPair) (bit : Nat) : Bytes :=
  if bit = 0 then sp.seed0 else sp.seed1

/-- The per-item master key of `sendFinalSecrets` (purchase.ts lines
235-249): start from `Buffer.alloc(32)` (32 zero bytes) and, for each round
`j < choiceBitCount`, XOR in `seed1_j` if bit `j` of `i` is set
(`(i >> j) & 1`), else `seed0_j`; rounds whose seed pair is missing are
skipped (the `if (seeds)` guard). -/
def masterKey (s : OtSender) (i : Nat) : Bytes :=
  (List.range s.choiceBitCount).foldl
    (fun mk j =>
      (s.roundSeeds[j]?).elim mk
        (fun sp => xorInto mk (selectSeed sp ((i >>> j) &&& 1))))
    (List.replicate 32 0)

/-- `sendFinalSecrets` (purchase.ts lines 229-258): for each catalog index
`i` in order, encrypt the book secret under the per-item master key; the
`if (!bookSecret) continue` guard becomes the `filterMap` over `[i]?`.
`enc` abstracts `aesGcmEncrypt(masterKey, bookSecret)` together with its
internal nonce draw. -/
def sendFinalSecrets (enc : Bytes → Bytes → Bytes) (s : OtSender) : List Bytes :=
  (List.range s.bookSecrets.length).filterMap
    (fun i => (s.bookSecrets[i]?).map (fun sec => enc (masterKey s i) sec))

/-- Outcome of `SemiHonestOtSender.start` (purchase.ts lines 180-186). -/
inductive StartOut
  | deliver (encryptedSecrets : List Bytes)
  | roundStart (round : Nat)
deriving Repr, DecidableEq

/-- `start` (purchase.ts lines 180-186): with zero choice bits deliver the
final secrets immediately, otherwise open round 0. -/
def start (enc : Bytes → Bytes → Bytes) (s : OtSender) : StartOut :=
  if s.choiceBitCount = 0 then
    StartOut.deliver (sendFinalSecrets enc s)
  else
    StartOut.roundStart 0

/-- Outcome of `SemiHonestOtSender.processRoundResponse`: either a
session-terminating close, or the round challenge message (two encrypted
seeds) optionally followed by the next `OT_ROUND_START`. -/
inductive RoundOut
  | closeMismatch
  | closeSeedNotFound
  | challenge (round : Nat) (e0 e1 : Bytes) (next : Option Nat)
deriving Repr, DecidableEq

/-- `processRoundResponse` (purchase.ts lines 188-227).  `enc0` and `enc1`
abstract the two branch encryptions `aesGcmEncrypt(sharedSecret_b, seed_b)`
built from the fresh ephemeral keypairs; the round-mismatch guard and the
seed lookup precede any of that work.  Returns the (possibly updated)
sender state together with the emitted outcome. -/
def processRoundResponse (enc0 enc1 : Bytes → Bytes) (s : OtSender)
    (round : Nat) : OtSender × RoundOut :=
  if round ≠ s.currentRound then
    (s, RoundOut.closeMismatch)
  else
    match s.roundSeeds[round]? with
    | none => (s, RoundOut.closeSeedNotFound)
    | some sp =>
      let e0 := enc0 sp.seed0
      let e1 := enc1 sp.seed1
      let s' : OtSender := { s with currentRound := s.currentRound + 1 }
      (s', RoundOut.challenge round e0 e1
        (if s'.currentRound < s.choiceBitCount then some s'.currentRound else none))

/-- The `OT_ROUNDS_COMPLETE` message handler (purchase.ts lines 366-371):
if an OT sender exists for the session, send the final secrets — there is
no check on the sender's round counter. -/
def handleOtRoundsComplete (enc : Bytes → Bytes → Bytes)
    (ot : Option OtSender) : Option (List Bytes) :=
  match ot with
  | some s => some (sendFinalSecrets enc s)
  | none => none

/-- A peer that answers a list of rounds in sequence: fold the sender
state through `processRoundResponse` over the given round numbers. -/
def runRounds (enc0 enc1 : Bytes → Bytes) (s : OtSender)
    (rounds : List Nat) : OtSender :=
  rounds.foldl (fun st r => (processRoundResponse enc0 enc1 st r).1) s

/-! ### The persisted purchase records and their SQL status transitions -/

/-- Persisted purchase status (`pending → paid → verified → completed`,
with `failed` terminal). -/
inductive Status
  | pending
  | paid
  | verified
  | completed
  | failed
deriving Repr, DecidableEq

/-- One row of the `purchases` table.  `id` is the primary key. -/
structure Purchase where
  id : Nat
  stripePaymentIntentId : Nat
  status : Status
  nullifierHash : Option Nat
deriving Repr, DecidableEq

/-- Per-row effect of the Stripe webhook update (webhook.ts lines 39-42):
`UPDATE purchases SET status = paid
 WHERE stripe_payment_intent_id = $1 AND status = pending`. -/
def markPaidRow (piId : Nat) (r : Purchase) : Purchase :=
  if r.stripePaymentIntentId = piId ∧ r.status = Status.pending then
    { r with status := Status.paid }
  else r

/-- The webhook update over the whole table, returning the new table and
the affected row count (`result.rowCount`). -/
def markPaid (t : List Purchase) (piId : Nat) : List Purchase × Nat :=
  (t.map (markPaidRow piId),
   (t.filter (fun r =>
     decide (r.stripePaymentIntentId = piId ∧ r.status = Status.pending))).length)

/-- Per-row effect of the ZKP_PROVE update (purchase.ts line 338):
`UPDATE purchases SET status = verified, nullifier_hash = $1
 WHERE id = $2 AND status = paid`. -/
def setVerified (pid nf : Nat) (r : Purchase) : Purchase :=
  if r.id = pid ∧ r.status = Status.paid then
    { r with status := Status.verified, nullifierHash := some nf }
  else r

/-- Database-level failure surfaced to the handler: Postgres error code
`23505` (unique constraint violation on `nullifier_hash`). -/
inductive DbError
  | uniqueViolation
deriving Repr, DecidableEq

/-- The ZKP_PROVE conditional update with the global uniqueness constraint
on `nullifier_hash`.  If a row matches `id = pid AND status = paid` but
some other row already stores `nf`, the write raises `23505`; otherwise it
returns the updated table and the affected row count.  (`id` being the
primary key, at most one row matches, so the uniqueness check against the
non-matching rows is the full constraint.) -/
def zkpProveUpdate (t : List Purchase) (pid nf : Nat) :
    Except DbError (List Purchase × Nat) :=
  if (t.filter (fun r => decide (r.id = pid ∧ r.status = Status.paid))).length = 0 then
    Except.ok (t, 0)
  else if t.any (fun r =>
      decide (¬(r.id = pid ∧ r.status = Status.paid) ∧ r.nullifierHash = some nf)) then
    Except.error DbError.uniqueViolation
  else
    Except.ok (t.map (setVerified pid nf),
      (t.filter (fun r => decide (r.id = pid ∧ r.status = Status.paid))).length)

/-- Session-visible outcome of the verify-then-consume step in the
`ZKP_PROVE` handler (purchase.ts lines 337-351). -/
inductive ConsumeOut
  | accepted (t : List Purchase)
  | closeVerifiedOrUsed
  | closeProofUsed
deriving Repr, DecidableEq

/-- The handler logic around the conditional update: `rowCount === 0`
closes with the verified-or-used reason; error code
`23505` closes with the proof-has-been-used reason (the AlreadyUsed outcome);
otherwise the OT phase begins with the updated table persisted. -/
def consume (t : List Purchase) (pid nf : Nat) : ConsumeOut :=
  match zkpProveUpdate t pid nf with
  | Except.error DbError.uniqueViolation => ConsumeOut.closeProofUsed
  | Except.ok (_, 0) => ConsumeOut.closeVerifiedOrUsed
  | Except.ok (t', _ + 1) => ConsumeOut.accepted t'

/-- Per-row effect of the DOWNLOAD_READY update (purchase.ts line 395):
`UPDATE purchases SET status = completed WHERE id = $1` — note the WHERE
clause matches on the id only, with no status condition. -/
def markCompletedRow (pid : Nat) (r : Purchase) : Purchase :=
  if r.id = pid then { r with status := Status.completed } else r

/-- The DOWNLOAD_READY update over the whole table. -/
def markCompleted (t : List Purchase) (pid : Nat) : List Purchase :=
  t.map (markCompletedRow pid)

/-! ### The ZKP_PROVE commitment gate -/

/-- Outcome of the commitment-and-proof gate at the top of the `ZKP_PROVE`
handler (purchase.ts lines 329-335). -/
inductive ZkpGateOut
  | closeCommitmentMismatch
  | closeVerifyFailed
  | proofAccepted
deriving Repr, DecidableEq

/-- The gate: `if (publicSignals[2] !== sessionState.purchase.commitment)`
close with the commitment-mismatch reason; only otherwise is
`groth16.verify(vkey, publicSignals, proof)` invoked.  The second
component records whether the verifier ran. -/
def zkpGate (verify : List Nat → Bool) (commitment : Nat)
    (publicSignals : List Nat) : ZkpGateOut × Bool :=
  if publicSignals[2]? ≠ some commitment then
    (ZkpGateOut.closeCommitmentMismatch, false)
  else if verify publicSignals then
    (ZkpGateOut.proofAccepted, true)
  else
    (ZkpGateOut.closeVerifyFailed, true)

/-! ### The REQUEST_SIGNED_URL handler -/

/-- One row of the `books` table as selected for the OT phase
(`SELECT id, file_key, secret_key FROM books ORDER BY id`). -/
structure Book where
  id : Nat
  fileKey : Nat
  secretKey : Bytes
deriving Repr, DecidableEq

/-- Outcome of the `REQUEST_SIGNED_URL` handler (purchase.ts lines
373-391). -/
inductive UrlOut
  | closeInvalidIndex
  | closeConfigError
  | signedUrl (fileKey : Nat)
deriving Repr, DecidableEq

/-- Whether the outcome closed the WebSocket connection (`ws.close`). -/
def closesConnection : UrlOut → Bool
  | UrlOut.signedUrl _ => false
  | UrlOut.closeInvalidIndex => true
  | UrlOut.closeConfigError => true

/-- The handler: `const book = sessionState.books[bookIndex]; if (!book)
return ws.close(1011, invalid book index)`; then the bucket-name check,
then the signed URL for `book.file_key`. -/
def requestSignedUrl (books : List Book) (bucketName : Option Nat)
    (bookIndex : Nat) : UrlOut :=
  match books[bookIndex]? with
  | none => UrlOut.closeInvalidIndex
  | some b =>
    match bucketName with
    | none => UrlOut.closeConfigError
    | some _ => UrlOut.signedUrl b.fileKey

/-! ### The AEAD wire format of ot_crypto.ts -/

/-- `randomBytes(n)`: `n` bytes read off an explicit randomness tape. -/
def randomBytesModel (tape : Nat → Nat) (n : Nat) : Bytes :=
  (List.range n).map tape

/-- `aesGcmEncrypt` (ot_crypto.ts lines 93-99):
`iv = randomBytes(12)`, then
`Buffer.concat([iv, ciphertext, authTag])`.  `cipherCore` abstracts the
AES-256-GCM keystream encryption (`cipher.update` + `cipher.final`) and
`tagCore` the authentication tag (`cipher.getAuthTag`), both as functions
of key, nonce and plaintext. -/
def aesGcmEncrypt (cipherCore tagCore : Bytes → Bytes → Bytes → Bytes)
    (tape : Nat → Nat) (key plaintext : Bytes) : Bytes :=
  let iv := randomBytesModel tape 12
  iv ++ cipherCore key iv plaintext ++ tagCore key iv plaintext

/-! ### Spec-side finalization formula

The specification describes finalization as: for catalog index `i`, the
per-item key is the exclusive-or of the `b` seeds selected by the bits of
`i` (`seed1_j` if bit `j` of `i` is set, else `seed0_j`).  The following
definitions render that sentence directly, to be compared against the
code-side `masterKey`. -/

/-- Byte-wise exclusive-or of two equal-length buffers. -/
def xorBytes (a b : Bytes) : Bytes :=
  List.zipWith Nat.xor a b

/-- The seeds selected by the bits of `i`, round `j` onward: `seed1_j`
when bit `j` of `i` is set, else `seed0_j`. -/
def selectedSeedsFrom (i : Nat) : List SeedPair → Nat → List Bytes
  | [], _ => []
  | sp :: rest, j =>
    (if i.testBit j then sp.seed1 else sp.seed0) :: selectedSeedsFrom i rest (j + 1)

/-- The per-item key as the spec words it: the exclusive-or of the seeds
selected by the bits of `i`. -/
def masterKeySpec (ss : List SeedPair) (i : Nat) : Bytes :=
  (selectedSeedsFrom i ss 0).foldl xorBytes (List.replicate 32 0)

/-! ### Indexed-iteration helpers

`masterKey` and `sendFinalSecrets` iterate an index `j` over
`List.range _` and look the round data up with `[j]?`; these recursors
walk the underlying list with an explicit counter instead, and the lemmas
below connect the two presentations. -/

/-- Fold over a list with an explicit position counter. -/
def foldIdxFrom (g : β → Nat → α → β) : List α → Nat → β → β
  | [], _, acc => acc
  | a :: l, k, acc => foldIdxFrom g l (k + 1) (g acc k a)

/-- Map over a list with an explicit position counter. -/
def mapIdxFrom (g : Nat → α → β) : List α → Nat → List β
  | [], _ => []
  | a :: l, k => g k a :: mapIdxFrom g l (k + 1)

theorem foldIdxFrom_shift (g : β → Nat → α → β) (l : List α) :
    ∀ (k : Nat) (acc : β),
      foldIdxFrom (fun b j x => g b (j + 1) x) l k acc = foldIdxFrom g l (k + 1) acc := by
  induction l with
  | nil => intro k acc; rfl
  | cons a t ih => intro k acc; simp only [foldIdxFrom]; exact ih (k + 1) _

theorem foldl_range_getElem (l : List α) :
    ∀ (g : β → Nat → α → β) (init : β),
      (List.range l.length).foldl
        (fun b j => (l[j]?).elim b (g b j)) init
      = foldIdxFrom g l 0 init := by
  induction l with
  | nil => intro g init; rfl
  | cons a t ih =>
    intro g init
    rw [List.length_cons, List.range_succ_eq_map, List.foldl_cons, List.foldl_map]
    simp only [List.getElem?_cons_zero, List.getElem?_cons_succ,
      Nat.succ_eq_add_one, Option.elim_some]
    rw [show (fun (b : β) (j : Nat) => (t[j]?).elim b (g b (j + 1)))
        = fun (b : β) (j : Nat) => (t[j]?).elim b ((fun b j x => g b (j + 1) x) b j) from rfl]
    rw [ih (fun b j x => g b (j + 1) x) (g init 0 a), foldIdxFrom_shift]
    rfl

theorem mapIdxFrom_shift (g : Nat → α → β) (l : List α) :
    ∀ (k : Nat),
      mapIdxFrom (fun j x => g (j + 1) x) l k = mapIdxFrom g l (k + 1) := by
  induction l with
  | nil => intro k; rfl
  | cons a t ih => intro k; simp only [mapIdxFrom]; rw [ih (k + 1)]

theorem filterMap_range_getElem (l : List α) :
    ∀ (g : Nat → α → β),
      (List.range l.length).filterMap (fun j => (l[j]?).map (g j))
      = mapIdxFrom g l 0 := by
  induction l with
  | nil => intro g; rfl
  | cons a t ih =>
    intro g
    rw [List.length_cons, List.range_succ_eq_map, List.filterMap_cons]
    have hfun :
        ((fun j => ((a :: t)[j]?).map (g j)) ∘ Nat.succ)
        = fun j : Nat => (t[j]?).map ((fun j x => g (j + 1) x) j) := by
      funext j
      simp only [Function.comp_apply, Nat.succ_eq_add_one, List.getElem?_cons_succ]
    rw [List.filterMap_map, hfun, ih (fun j x => g (j + 1) x), mapIdxFrom_shift]
    simp only [List.getElem?_cons_zero, Option.map_some]
    rfl

/-! ### Bridging the code-side master key to the spec formula -/

theorem length_xorBytes (a b : Bytes) :
    (xorBytes a b).length = min a.length b.length := by
  simp [xorBytes]

theorem xorInto_eq_xorBytes (mk : Bytes) :
    ∀ seed : Bytes, seed.length = mk.length → xorInto mk seed = xorBytes mk seed := by
  induction mk with
  | nil =>
    intro seed h
    cases seed with
    | nil => rfl
    | cons s t => simp at h
  | cons b mk ih =>
    intro seed h
    cases seed with
    | nil => simp at h
    | cons s t =>
      simp only [List.length_cons, Nat.add_right_cancel_iff] at h
      simp only [xorInto, xorBytes, List.zipWith_cons_cons]
      have := ih t h
      simp only [xorBytes] at this
      rw [this]

theorem selectSeed_testBit (sp : SeedPair) (i j : Nat) :
    selectSeed sp ((i >>> j) &&& 1) = if i.testBit j then sp.seed1 else sp.seed0 := by
  rw [Nat.and_one_is_mod, Nat.shiftRight_eq_div_pow, Nat.testBit_to_div_mod]
  rcases Nat.mod_two_eq_zero_or_one (i / 2 ^ j) with h | h <;>
    simp [selectSeed, h]

theorem foldIdxFrom_xorInto (i : Nat) (ss : List SeedPair) :
    ∀ (j : Nat) (acc : Bytes), acc.length = 32 →
      (∀ sp ∈ ss, sp.seed0.length = 32 ∧ sp.seed1.length = 32) →
      foldIdxFrom (fun mk j sp => xorInto mk (selectSeed sp ((i >>> j) &&& 1))) ss j acc
      = (selectedSeedsFrom i ss j).foldl xorBytes acc := by
  induction ss with
  | nil => intro j acc _ _; rfl
  | cons sp rest ih =>
    intro j acc hacc hall
    simp only [foldIdxFrom, selectedSeedsFrom, List.foldl_cons]
    have h32 : (if i.testBit j then sp.seed1 else sp.seed0).length = 32 := by
      rcases hall sp (by simp) with ⟨h0, h1⟩
      by_cases hb : i.testBit j <;> simp [hb, h0, h1]
    rw [selectSeed_testBit, xorInto_eq_xorBytes acc _ (by rw [h32, hacc])]
    exact ih (j + 1) _ (by rw [length_xorBytes, hacc, h32]; simp)
      (fun q hq => hall q (by simp [hq]))

theorem length_mapIdxFrom (g : Nat → α → β) (l : List α) :
    ∀ k, (mapIdxFrom g l k).length = l.length := by
  induction l with
  | nil => intro k; rfl
  | cons a t ih => intro k; simp only [mapIdxFrom, List.length_cons, ih]

theorem clog_two_four : Nat.clog 2 4 = 2 := by
  have h1 : Nat.clog 2 1 = 0 := Nat.clog_of_right_le_one (by norm_num) 2
  have h2 : Nat.clog 2 2 = 1 := by
    rw [Nat.clog_of_two_le (by norm_num) (by norm_num)]
    norm_num [h1]
  rw [Nat.clog_of_two_le (by norm_num) (by norm_num)]
  norm_num [h2]

/-- If the response round matches the expected round and the round's seed
pair exists, processing accepts the round: the counter advances by one and
nothing else in the state changes. -/
theorem processRoundResponse_accept (e0 e1 : Bytes → Bytes) (s : OtSender) (round : Nat)
    (hr : round = s.currentRound) (hlt : round < s.roundSeeds.length) :
    (processRoundResponse e0 e1 s round).1
      = { s with currentRound := s.currentRound + 1 } := by
  simp only [processRoundResponse]
  rw [if_neg (by omega : ¬round ≠ s.currentRound), List.getElem?_eq_getElem hlt]

/-- A peer that answers rounds `k, k+1, …, k+m-1` in sequence drives the
round counter from `k` to `k+m`, leaving the seed list untouched. -/
theorem runRounds_seq (e0 e1 : Bytes → Bytes) :
    ∀ (m k : Nat) (s : OtSender), s.currentRound = k → k + m ≤ s.roundSeeds.length →
      (runRounds e0 e1 s (List.range' k m)).currentRound = k + m
      ∧ (runRounds e0 e1 s (List.range' k m)).roundSeeds = s.roundSeeds := by
  intro m
  induction m with
  | zero =>
    intro k s hk _
    constructor
    · simpa [runRounds] using hk
    · simp [runRounds]
  | succ m ih =>
    intro k s hk hle
    have hklt : k < s.roundSeeds.length := by omega
    have hstep : (processRoundResponse e0 e1 s k).1
        = { s with currentRound := s.currentRound + 1 } :=
      processRoundResponse_accept e0 e1 s k hk.symm hklt
    have hrw : runRounds e0 e1 s (List.range' k (m + 1))
        = runRounds e0 e1 { s with currentRound := s.currentRound + 1 } (List.range' (k + 1) m) := by
      rw [List.range'_succ]
      simp only [runRounds, List.foldl_cons, hstep]
    rw [hrw]
    have h2 := ih (k + 1) { s with currentRound := s.currentRound + 1 }
      (by simp [hk]) (by simpa using by omega)
    refine ⟨?_, by simpa using h2.2⟩
    rw [h2.1]
    omega

/-- The code's per-item master key computation coincides with the spec's
formula: the XOR of the `b` seeds selected by the bits of `i`. -/
theorem masterKey_eq_spec (s : OtSender) (i : Nat)
    (hlen : s.roundSeeds.length = s.choiceBitCount)
    (h32 : ∀ sp ∈ s.roundSeeds, sp.seed0.length = 32 ∧ sp.seed1.length = 32) :
    masterKey s i = masterKeySpec s.roundSeeds i := by
  unfold masterKey masterKeySpec
  rw [← hlen]
  rw [foldl_range_getElem s.roundSeeds
    (fun mk j sp => xorInto mk (selectSeed sp ((i >>> j) &&& 1))) (List.replicate 32 0)]
  exact foldIdxFrom_xorInto i s.roundSeeds 0 _ (by simp) h32

/-! ### Claim theorems -/

/-- Claim C7: a round response carrying a round number different from the
engine's currently expected round is rejected with the round-mismatch
close that terminates the session, and the engine's state does not
advance: the returned state is exactly the input state (round counter
unchanged, seeds untouched) and the outcome carries no challenge, so no
seed was consumed or encrypted — for every choice of the round encryption
functions. -/
theorem c7_round_mismatch_rejected (e0 e1 : Bytes → Bytes) (s : OtSender) (round : Nat)
    (h : round ≠ s.currentRound) :
    processRoundResponse e0 e1 s round = (s, RoundOut.closeMismatch) := by
  simp only [processRoundResponse]
  rw [if_pos h]

/-- Witness for C7: a sender expecting round 0 receives a response for
round 1; the session is closed with the mismatch reason and the state is
returned unchanged. -/
theorem c7_witness :
    processRoundResponse id id
        { bookSecrets := [], choiceBitCount := 2, currentRound := 0, roundSeeds := [] } 1
      = ({ bookSecrets := [], choiceBitCount := 2, currentRound := 0, roundSeeds := [] },
         RoundOut.closeMismatch) :=
  c7_round_mismatch_rejected id id
    { bookSecrets := [], choiceBitCount := 2, currentRound := 0, roundSeeds := [] } 1
    (by decide)

/-- Claim C8: the groth16 verifier runs exactly when the commitment
embedded at public-signal index 2 equals the stored commitment; any
mismatch is rejected (commitment-mismatch close) with the verifier never
invoked, for every verifier function. -/
theorem c8_commitment_checked_first (verify : List Nat → Bool) (commitment : Nat)
    (publicSignals : List Nat) :
    ((zkpGate verify commitment publicSignals).2 = true
      ↔ publicSignals[2]? = some commitment)
    ∧ (publicSignals[2]? ≠ some commitment →
        zkpGate verify commitment publicSignals
          = (ZkpGateOut.closeCommitmentMismatch, false)) := by
  constructor
  · by_cases h : publicSignals[2]? = some commitment
    · cases hv : verify publicSignals <;> simp [zkpGate, h, hv]
    · simp [zkpGate, h]
  · intro h
    simp [zkpGate, h]

/-- Witness for C8: public signals `[1, 2, 3]` embed commitment `3` at
index 2, which differs from the stored commitment `5`; the gate closes
with the commitment mismatch and the verifier-invoked flag is false. -/
theorem c8_witness :
    (((zkpGate (fun _ => true) 5 [1, 2, 3]).2 = true) ↔ ([1, 2, 3][2]? = some 5))
    ∧ zkpGate (fun _ => true) 5 [1, 2, 3] = (ZkpGateOut.closeCommitmentMismatch, false) :=
  ⟨(c8_commitment_checked_first (fun _ => true) 5 [1, 2, 3]).1,
   (c8_commitment_checked_first (fun _ => true) 5 [1, 2, 3]).2 (by decide)⟩

/-- Counterexample to claim C2: a download-reference request with item
index 3 against a one-item catalog is answered by closing the WebSocket
connection (`ws.close` with code 1011 and the invalid-book-index reason), not by a recoverable
rejection: `closesConnection` holds on the outcome, so the session cannot
retry with another index. -/
theorem c2_counterexample :
    requestSignedUrl [{ id := 1, fileKey := 10, secretKey := [5] }] (some 1) 3
      = UrlOut.closeInvalidIndex
    ∧ closesConnection
        (requestSignedUrl [{ id := 1, fileKey := 10, secretKey := [5] }] (some 1) 3)
      = true :=
  ⟨rfl, rfl⟩

/-- Claim C2 as amended: a download-reference request whose item index is
outside the valid range is rejected with the invalid-index outcome, and
that outcome closes the connection (the session cannot retry). -/
theorem c2_oob_closes (books : List Book) (bucketName : Option Nat) (bookIndex : Nat)
    (h : books[bookIndex]? = none) :
    requestSignedUrl books bucketName bookIndex = UrlOut.closeInvalidIndex
    ∧ closesConnection (requestSignedUrl books bucketName bookIndex) = true := by
  constructor <;> simp [requestSignedUrl, h, closesConnection]

/-- Witness for the amended C2: an empty catalog with any requested index
yields the invalid-index close. -/
theorem c2_witness :
    requestSignedUrl [] none 0 = UrlOut.closeInvalidIndex
    ∧ closesConnection (requestSignedUrl [] none 0) = true :=
  c2_oob_closes [] none 0 (by decide)

/-- Claim C9: for every key and plaintext, `aesGcmEncrypt` draws a fresh
12-byte nonce from the randomness tape and returns exactly
`nonce ++ ciphertext ++ tag`, so — for any cipher core that preserves
plaintext length and any 16-byte tag core, which is how AES-256-GCM
behaves — the output length is `12 + length plaintext + 16` and the nonce
occupies the first 12 bytes. -/
theorem c9_aead_layout (cipherCore tagCore : Bytes → Bytes → Bytes → Bytes)
    (tape : Nat → Nat) (key plaintext : Bytes)
    (hct : ∀ k iv p, (cipherCore k iv p).length = p.length)
    (htag : ∀ k iv p, (tagCore k iv p).length = 16) :
    (aesGcmEncrypt cipherCore tagCore tape key plaintext).length
      = 12 + plaintext.length + 16
    ∧ (aesGcmEncrypt cipherCore tagCore tape key plaintext).take 12
      = randomBytesModel tape 12 := by
  have hiv : (randomBytesModel tape 12).length = 12 := by
    simp [randomBytesModel]
  constructor
  · simp only [aesGcmEncrypt, List.length_append, hct, htag, hiv]
  · simp only [aesGcmEncrypt]
    generalize hgen : randomBytesModel tape 12 = iv at hiv ⊢
    rw [List.append_assoc, ← hiv, List.take_left]

/-- Witness for C9: with the identity cipher core, an all-zero 16-byte
tag and the identity tape, encrypting a 3-byte plaintext yields a 31-byte
blob whose first 12 bytes are the nonce. -/
theorem c9_witness :
    (aesGcmEncrypt (fun _ _ p => p) (fun _ _ _ => List.replicate 16 0)
        (fun i => i) [] [1, 2, 3]).length = 12 + 3 + 16
    ∧ (aesGcmEncrypt (fun _ _ p => p) (fun _ _ _ => List.replicate 16 0)
        (fun i => i) [] [1, 2, 3]).take 12 = randomBytesModel (fun i => i) 12 := by
  have h := c9_aead_layout (fun _ _ p => p) (fun _ _ _ => List.replicate 16 0)
    (fun i => i) [] [1, 2, 3] (fun _ _ _ => rfl) (fun _ _ _ => by simp)
  exact ⟨h.1, h.2⟩

/-- Counterexample to claim C1: a freshly constructed sender for a 4-book
catalog (so `b = 2` rounds) that has processed no round at all
(`currentRound = 0`) still triggers delivery the moment the peer sends
`OT_ROUNDS_COMPLETE`: the handler emits the finalization message with the
round counter at 0, not 2, because it performs no completion check. -/
theorem c1_counterexample :
    (handleOtRoundsComplete (fun _ _ => []) (some (mkOtSender [[1], [2], [3], [4]]
        (fun _ => { seed0 := List.replicate 32 5, seed1 := List.replicate 32 6 })))).isSome = true
    ∧ (mkOtSender [[1], [2], [3], [4]]
        (fun _ => { seed0 := List.replicate 32 5, seed1 := List.replicate 32 6 })).currentRound = 0
    ∧ (mkOtSender [[1], [2], [3], [4]]
        (fun _ => { seed0 := List.replicate 32 5, seed1 := List.replicate 32 6 })).choiceBitCount = 2 := by
  refine ⟨rfl, rfl, ?_⟩
  show choiceBitCount 4 = 2
  rw [choiceBitCount, if_pos (by norm_num)]
  exact clog_two_four

/-- Claim C1 as amended: the engine delivers the final encrypted key array
in response to the peer's `OT_ROUNDS_COMPLETE` signal whenever an OT
sender is active, without verifying that all `b` rounds have completed
(and delivers nothing when no sender exists); the round counter equals `b`
at delivery only when the peer has in fact answered every round in order,
which an honest peer does but the engine does not enforce. -/
theorem c1_amended (enc : Bytes → Bytes → Bytes) (e0 e1 : Bytes → Bytes) (s : OtSender)
    (hcur : s.currentRound = 0) (hlen : s.choiceBitCount ≤ s.roundSeeds.length) :
    handleOtRoundsComplete enc (some s) = some (sendFinalSecrets enc s)
    ∧ handleOtRoundsComplete enc none = none
    ∧ (runRounds e0 e1 s (List.range s.choiceBitCount)).currentRound = s.choiceBitCount := by
  refine ⟨rfl, rfl, ?_⟩
  have h := runRounds_seq e0 e1 s.choiceBitCount 0 s hcur (by omega)
  rw [List.range_eq_range']
  simpa using h.1

/-- Witness for the amended C1: a 2-book sender (one round); after the
honest peer answers round 0, the counter equals the round count, and the
completion signal triggers delivery. -/
theorem c1_witness :
    handleOtRoundsComplete (fun k p => k ++ p) (some (mkOtSender [[1], [2]]
        (fun _ => { seed0 := List.replicate 32 5, seed1 := List.replicate 32 6 })))
      = some (sendFinalSecrets (fun k p => k ++ p) (mkOtSender [[1], [2]]
        (fun _ => { seed0 := List.replicate 32 5, seed1 := List.replicate 32 6 })))
    ∧ handleOtRoundsComplete (fun k p => k ++ p) none = none
    ∧ (runRounds id id (mkOtSender [[1], [2]]
        (fun _ => { seed0 := List.replicate 32 5, seed1 := List.replicate 32 6 }))
        (List.range (mkOtSender [[1], [2]]
          (fun _ => { seed0 := List.replicate 32 5, seed1 := List.replicate 32 6 })).choiceBitCount)).currentRound
      = (mkOtSender [[1], [2]]
          (fun _ => { seed0 := List.replicate 32 5, seed1 := List.replicate 32 6 })).choiceBitCount :=
  c1_amended (fun k p => k ++ p) id id
    (mkOtSender [[1], [2]]
      (fun _ => { seed0 := List.replicate 32 5, seed1 := List.replicate 32 6 }))
    rfl (by simp [mkOtSender])

/-- Claim C6: at setup the number of selection-bit rounds equals
`ceil(log2 N)` (`Nat.clog 2 N`), which is 0 whenever `N ≤ 1`; one seed
pair is drawn per round; and with a single-item catalog `start` runs no
round and immediately delivers the item's key (encrypted under the
all-zero master key). -/
theorem c6_setup (books : List Bytes) (draw : Nat → SeedPair)
    (enc : Bytes → Bytes → Bytes) (b : Bytes) :
    (mkOtSender books draw).choiceBitCount = Nat.clog 2 books.length
    ∧ (books.length ≤ 1 → (mkOtSender books draw).choiceBitCount = 0)
    ∧ (mkOtSender books draw).roundSeeds.length = (mkOtSender books draw).choiceBitCount
    ∧ start enc (mkOtSender [b] draw) = StartOut.deliver [enc (List.replicate 32 0) b] := by
  refine ⟨?_, ?_, ?_, ?_⟩
  · show choiceBitCount books.length = Nat.clog 2 books.length
    rw [choiceBitCount]
    by_cases h : 1 < books.length
    · rw [if_pos h]
    · rw [if_neg h, Nat.clog_of_right_le_one (by omega)]
  · intro h
    show choiceBitCount books.length = 0
    rw [choiceBitCount, if_neg (by omega)]
  · simp [mkOtSender]
  · rfl

/-- Witness for C6: the empty catalog has zero rounds, and a one-book
catalog delivers that book's key at `start` with no round message. -/
theorem c6_witness :
    (mkOtSender ([] : List Bytes) (fun _ => { seed0 := [], seed1 := [] })).choiceBitCount = 0
    ∧ start (fun k p => k ++ p) (mkOtSender [[9]] (fun _ => { seed0 := [], seed1 := [] }))
      = StartOut.deliver [List.replicate 32 0 ++ [9]] :=
  ⟨(c6_setup [] (fun _ => { seed0 := [], seed1 := [] }) (fun k p => k ++ p) [9]).2.1 (by decide),
   (c6_setup [] (fun _ => { seed0 := [], seed1 := [] }) (fun k p => k ++ p) [9]).2.2.2⟩

/-- Claim C10: when the round count is zero, every per-item master key is
the all-zero 32-byte key (the `Buffer.alloc(32)` initialization with no
XOR applied), so each delivered ciphertext is the item secret encrypted
under the all-zero key — in particular a single-item catalog delivers
`enc zeroKey secret`, not the plaintext secret. -/
theorem c10_zero_rounds (enc : Bytes → Bytes → Bytes) (s : OtSender)
    (h : s.choiceBitCount = 0) :
    (∀ i, masterKey s i = List.replicate 32 0)
    ∧ sendFinalSecrets enc s
      = mapIdxFrom (fun _ sec => enc (List.replicate 32 0) sec) s.bookSecrets 0
    ∧ (∀ (b : Bytes) (draw : Nat → SeedPair),
        sendFinalSecrets enc (mkOtSender [b] draw) = [enc (List.replicate 32 0) b]) := by
  have hm : ∀ i, masterKey s i = List.replicate 32 0 := by
    intro i
    simp [masterKey, h]
  refine ⟨hm, ?_, fun b draw => rfl⟩
  have h1 : sendFinalSecrets enc s
      = mapIdxFrom (fun i sec => enc (masterKey s i) sec) s.bookSecrets 0 :=
    filterMap_range_getElem s.bookSecrets (fun i sec => enc (masterKey s i) sec)
  rw [h1]
  congr 1
  funext i sec
  rw [hm i]

/-- Witness for C10: the one-book sender built by the constructor has the
all-zero master key and delivers the secret encrypted under it. -/
theorem c10_witness :
    masterKey (mkOtSender [[7]] (fun _ => { seed0 := [], seed1 := [] })) 0
      = List.replicate 32 0
    ∧ sendFinalSecrets (fun k p => k ++ p)
        (mkOtSender [[7]] (fun _ => { seed0 := [], seed1 := [] }))
      = mapIdxFrom (fun _ sec => List.replicate 32 0 ++ sec)
          (mkOtSender [[7]] (fun _ => { seed0 := [], seed1 := [] })).bookSecrets 0 :=
  ⟨(c10_zero_rounds (fun k p => k ++ p)
      (mkOtSender [[7]] (fun _ => { seed0 := [], seed1 := [] })) rfl).1 0,
   (c10_zero_rounds (fun k p => k ++ p)
      (mkOtSender [[7]] (fun _ => { seed0 := [], seed1 := [] })) rfl).2.1⟩

/-- Claim C5: when the seed list matches the round count and all seeds are
32 bytes (as the constructor guarantees), the finalization output is, in
catalog order, one entry per item: the item secret encrypted under the
spec-side master key — the byte-wise XOR of the round seeds selected by
the bits of the index, `seed1_j` when bit `j` of `i` is set and `seed0_j`
otherwise — and its length is exactly the catalog size `N`. -/
theorem c5_finalization (enc : Bytes → Bytes → Bytes) (s : OtSender)
    (hlen : s.roundSeeds.length = s.choiceBitCount)
    (h32 : ∀ sp ∈ s.roundSeeds, sp.seed0.length = 32 ∧ sp.seed1.length = 32) :
    sendFinalSecrets enc s
      = mapIdxFrom (fun i sec => enc (masterKeySpec s.roundSeeds i) sec) s.bookSecrets 0
    ∧ (sendFinalSecrets enc s).length = s.bookSecrets.length := by
  have h1 : sendFinalSecrets enc s
      = mapIdxFrom (fun i sec => enc (masterKey s i) sec) s.bookSecrets 0 :=
    filterMap_range_getElem s.bookSecrets (fun i sec => enc (masterKey s i) sec)
  have h2 : (fun (i : Nat) (sec : Bytes) => enc (masterKey s i) sec)
      = fun i sec => enc (masterKeySpec s.roundSeeds i) sec := by
    funext i sec
    rw [masterKey_eq_spec s i hlen h32]
  rw [h1, h2]
  exact ⟨rfl, length_mapIdxFrom _ _ 0⟩

/-- Witness for C5: a 2-book, 1-round sender delivers two ciphertexts,
entry `i` encrypted under the seed selected by bit 0 of `i`. -/
theorem c5_witness :
    sendFinalSecrets (fun k sec => k ++ sec)
        { bookSecrets := [[1], [2]], choiceBitCount := 1, currentRound := 1,
          roundSeeds := [{ seed0 := List.replicate 32 5, seed1 := List.replicate 32 9 }] }
      = mapIdxFrom
          (fun i sec => masterKeySpec
            [{ seed0 := List.replicate 32 5, seed1 := List.replicate 32 9 }] i ++ sec)
          [[1], [2]] 0
    ∧ (sendFinalSecrets (fun k sec => k ++ sec)
        { bookSecrets := [[1], [2]], choiceBitCount := 1, currentRound := 1,
          roundSeeds := [{ seed0 := List.replicate 32 5, seed1 := List.replicate 32 9 }] }).length
      = 2 := by
  have h := c5_finalization (fun k sec => k ++ sec)
    { bookSecrets := [[1], [2]], choiceBitCount := 1, currentRound := 1,
      roundSeeds := [{ seed0 := List.replicate 32 5, seed1 := List.replicate 32 9 }] }
    rfl (by decide)
  exact ⟨h.1, h.2⟩

/-- Counterexample to claim C3: the DOWNLOAD_READY update
(`UPDATE purchases SET status = completed WHERE id = $1`) advances a
purchase whose persisted status is still `pending` — not the expected
predecessor `verified` — straight to `completed`, so this transition is a
blind write, not a conditional one. -/
theorem c3_counterexample :
    markCompleted
        [{ id := 1, stripePaymentIntentId := 100, status := Status.pending,
           nullifierHash := none }] 1
      = [{ id := 1, stripePaymentIntentId := 100, status := Status.completed,
           nullifierHash := none }]
    ∧ Status.pending ≠ Status.verified :=
  ⟨rfl, by decide⟩

/-- Claim C3 as amended: the `pending → paid` webhook update and the
`paid → verified` proof update are conditional — a row whose status is not
the expected predecessor is left unchanged — but the final `completed`
write is unconditional: it sets `completed` on the matching id whatever
the row's current status. -/
theorem c3_amended (piId pid nf : Nat) (r : Purchase) :
    (r.status ≠ Status.pending → markPaidRow piId r = r)
    ∧ (r.status ≠ Status.paid → setVerified pid nf r = r)
    ∧ (markCompletedRow r.id r).status = Status.completed := by
  refine ⟨?_, ?_, ?_⟩
  · intro h
    simp only [markPaidRow]
    rw [if_neg (fun hc => h hc.2)]
  · intro h
    simp only [setVerified]
    rw [if_neg (fun hc => h hc.2)]
  · simp [markCompletedRow]

/-- Witness for the amended C3: a `verified` row survives the webhook
update, a `pending` row survives the proof update, and a `failed` row is
still marked `completed` by the blind final write. -/
theorem c3_witness :
    markPaidRow 100
        { id := 1, stripePaymentIntentId := 100, status := Status.verified,
          nullifierHash := none }
      = { id := 1, stripePaymentIntentId := 100, status := Status.verified,
          nullifierHash := none }
    ∧ setVerified 1 7
        { id := 1, stripePaymentIntentId := 100, status := Status.pending,
          nullifierHash := none }
      = { id := 1, stripePaymentIntentId := 100, status := Status.pending,
          nullifierHash := none }
    ∧ (markCompletedRow 1
        { id := 1, stripePaymentIntentId := 100, status := Status.failed,
          nullifierHash := none }).status = Status.completed :=
  ⟨(c3_amended 100 1 7
      { id := 1, stripePaymentIntentId := 100, status := Status.verified,
        nullifierHash := none }).1 (by decide),
   (c3_amended 100 1 7
      { id := 1, stripePaymentIntentId := 100, status := Status.pending,
        nullifierHash := none }).2.1 (by decide),
   (c3_amended 100 1 7
      { id := 1, stripePaymentIntentId := 100, status := Status.failed,
        nullifierHash := none }).2.2⟩

/-- Claim C4: for a paid purchase `p` presenting a fresh nullifier, the
conditional update succeeds exactly once — one affected row, `paid →
verified`, nullifier recorded, every other row untouched — and the session
proceeds; a repeated consume on the same purchase matches zero rows,
leaves the table unchanged, and yields the distinguishable
verified-or-used close; a different paid purchase re-presenting the same
nullifier trips the uniqueness constraint (error 23505) and yields the
distinguishable AlreadyUsed close — never a silent overwrite. -/
theorem c4_consume_exactly_once (pre post : List Purchase) (p : Purchase) (pid nf : Nat)
    (hid : p.id = pid) (hst : p.status = Status.paid)
    (hothers : ∀ q ∈ pre ++ post, q.id ≠ pid)
    (hfresh : ∀ q ∈ pre ++ p :: post, q.nullifierHash ≠ some nf) :
    zkpProveUpdate (pre ++ p :: post) pid nf
      = Except.ok
          (pre ++ { p with status := Status.verified, nullifierHash := some nf } :: post, 1)
    ∧ consume (pre ++ p :: post) pid nf
      = ConsumeOut.accepted
          (pre ++ { p with status := Status.verified, nullifierHash := some nf } :: post)
    ∧ (∀ nf2,
        zkpProveUpdate
            (pre ++ { p with status := Status.verified, nullifierHash := some nf } :: post)
            pid nf2
          = Except.ok
              (pre ++ { p with status := Status.verified, nullifierHash := some nf } :: post,
               0)
        ∧ consume
            (pre ++ { p with status := Status.verified, nullifierHash := some nf } :: post)
            pid nf2
          = ConsumeOut.closeVerifiedOrUsed)
    ∧ (∀ pid2 q, q ∈ pre ++ post → q.id = pid2 → q.status = Status.paid →
        consume
            (pre ++ { p with status := Status.verified, nullifierHash := some nf } :: post)
            pid2 nf
          = ConsumeOut.closeProofUsed) := by
  have hmempre : ∀ q ∈ pre, q ∈ pre ++ post := fun q hq => List.mem_append_left _ hq
  have hmempost : ∀ q ∈ post, q ∈ pre ++ post := fun q hq => List.mem_append_right _ hq
  have hfilpre : pre.filter (fun r => decide (r.id = pid ∧ r.status = Status.paid)) = [] :=
    List.filter_eq_nil_iff.mpr (fun q hq => by simp [hothers q (hmempre q hq)])
  have hfilpost : post.filter (fun r => decide (r.id = pid ∧ r.status = Status.paid)) = [] :=
    List.filter_eq_nil_iff.mpr (fun q hq => by simp [hothers q (hmempost q hq)])
  have hfil : (pre ++ p :: post).filter
      (fun r => decide (r.id = pid ∧ r.status = Status.paid)) = [p] := by
    rw [List.filter_append, hfilpre, List.filter_cons, if_pos (by simp [hid, hst]), hfilpost]
    rfl
  have hany : (pre ++ p :: post).any
      (fun r => decide (¬(r.id = pid ∧ r.status = Status.paid)
        ∧ r.nullifierHash = some nf)) = false :=
    List.any_eq_false.mpr (fun q hq => by simp [hfresh q hq])
  have hmappre : pre.map (setVerified pid nf) = pre :=
    (List.map_congr_left
      (fun q hq => by simp [setVerified, hothers q (hmempre q hq)])).trans (List.map_id pre)
  have hmappost : post.map (setVerified pid nf) = post :=
    (List.map_congr_left
      (fun q hq => by simp [setVerified, hothers q (hmempost q hq)])).trans (List.map_id post)
  have hsetp : setVerified pid nf p
      = { p with status := Status.verified, nullifierHash := some nf } := by
    simp [setVerified, hid, hst]
  have hupdate : zkpProveUpdate (pre ++ p :: post) pid nf
      = Except.ok
          (pre ++ { p with status := Status.verified, nullifierHash := some nf } :: post,
           1) := by
    unfold zkpProveUpdate
    rw [hfil, hany]
    simp [hmappre, hmappost, hsetp]
  have hfil' : (pre ++ ({ p with status := Status.verified, nullifierHash := some nf }
        : Purchase) :: post).filter
      (fun r => decide (r.id = pid ∧ r.status = Status.paid)) = [] := by
    rw [List.filter_append, hfilpre, List.filter_cons, if_neg (by simp), hfilpost]
    rfl
  have hupd2 : ∀ nf2,
      zkpProveUpdate
          (pre ++ { p with status := Status.verified, nullifierHash := some nf } :: post)
          pid nf2
        = Except.ok
            (pre ++ { p with status := Status.verified, nullifierHash := some nf } :: post,
             0) := by
    intro nf2
    unfold zkpProveUpdate
    rw [hfil']
    simp
  refine ⟨hupdate, by simp [consume, hupdate], fun nf2 => ⟨hupd2 nf2, by simp [consume, hupd2 nf2]⟩, ?_⟩
  intro pid2 q hq hqid hqst
  have hqid' : pid2 ≠ pid := by
    rw [← hqid]
    exact hothers q hq
  have hqmem : q ∈ pre
      ++ ({ p with status := Status.verified, nullifierHash := some nf } : Purchase) :: post := by
    rcases List.mem_append.mp hq with h | h
    · exact List.mem_append_left _ h
    · exact List.mem_append_right _ (List.mem_cons_of_mem _ h)
  have hqfil : q ∈ (pre
      ++ ({ p with status := Status.verified, nullifierHash := some nf } : Purchase) :: post).filter
        (fun r => decide (r.id = pid2 ∧ r.status = Status.paid)) :=
    List.mem_filter.mpr ⟨hqmem, by simp [hqid, hqst]⟩
  have hrc : ¬((pre
      ++ ({ p with status := Status.verified, nullifierHash := some nf } : Purchase) :: post).filter
        (fun r => decide (r.id = pid2 ∧ r.status = Status.paid))).length = 0 := by
    intro h0
    rw [List.length_eq_zero] at h0
    rw [h0] at hqfil
    exact absurd hqfil (List.not_mem_nil q)
  have hany2 : (pre
      ++ ({ p with status := Status.verified, nullifierHash := some nf } : Purchase) :: post).any
      (fun r => decide (¬(r.id = pid2 ∧ r.status = Status.paid)
        ∧ r.nullifierHash = some nf)) = true := by
    refine List.any_eq_true.mpr
      ⟨{ p with status := Status.verified, nullifierHash := some nf },
       List.mem_append_right _ (List.mem_cons_self _ _), ?_⟩
    simp [hid, Ne.symm hqid']
  have hupd3 : zkpProveUpdate
      (pre ++ { p with status := Status.verified, nullifierHash := some nf } :: post)
      pid2 nf = Except.error DbError.uniqueViolation := by
    unfold zkpProveUpdate
    rw [if_neg hrc, if_pos hany2]
  simp [consume, hupd3]

/-- Witness for C4: a two-purchase table — purchase 2 and purchase 1, both
paid, no nullifier yet.  Consuming purchase 1 with nullifier 7 updates
exactly that row; consuming purchase 1 again (any nullifier) yields the
verified-or-used close; consuming purchase 2 with the same nullifier 7
yields the AlreadyUsed close. -/
theorem c4_witness :
    zkpProveUpdate
        [{ id := 2, stripePaymentIntentId := 60, status := Status.paid, nullifierHash := none },
         { id := 1, stripePaymentIntentId := 50, status := Status.paid, nullifierHash := none }]
        1 7
      = Except.ok
          ([{ id := 2, stripePaymentIntentId := 60, status := Status.paid, nullifierHash := none },
            { id := 1, stripePaymentIntentId := 50, status := Status.verified,
              nullifierHash := some 7 }], 1)
    ∧ consume
        [{ id := 2, stripePaymentIntentId := 60, status := Status.paid, nullifierHash := none },
         { id := 1, stripePaymentIntentId := 50, status := Status.verified,
           nullifierHash := some 7 }] 1 9
      = ConsumeOut.closeVerifiedOrUsed
    ∧ consume
        [{ id := 2, stripePaymentIntentId := 60, status := Status.paid, nullifierHash := none },
         { id := 1, stripePaymentIntentId := 50, status := Status.verified,
           nullifierHash := some 7 }] 2 7
      = ConsumeOut.closeProofUsed := by
  have h := c4_consume_exactly_once
    [{ id := 2, stripePaymentIntentId := 60, status := Status.paid, nullifierHash := none }]
    []
    { id := 1, stripePaymentIntentId := 50, status := Status.paid, nullifierHash := none }
    1 7 rfl rfl (by decide) (by decide)
  exact ⟨h.1, (h.2.2.1 9).2,
    h.2.2.2 2
      { id := 2, stripePaymentIntentId := 60, status := Status.paid, nullifierHash := none }
      (by decide) rfl rfl⟩

end PBP
